import Mathlib

/-!
Shallow embedding of `fleet-lambda-packager` (src/main.go): a Lambda handler
that, per request, resolves a team against the fleet control plane, builds the
requested installer package formats sequentially, and fans out an upload of
each built artifact to object storage.

External collaborators (the packaging toolchain, os.Stat/os.Open, the S3
client, environment variables) are modelled as explicit environments passed to
the embedded functions; the effectful builder is modelled as an oracle indexed
by the invocation counter, so two calls may return different paths.
-/

namespace FleetLambdaPackager

/-- `CreateInstallersRequest` (main.go lines 27-31): the parsed request body. -/
structure CreateInstallersRequest where
  teamName : String
  enrollSecret : String
  packages : List String
deriving Repr, DecidableEq

/-- One entry of the resolved team's `Secrets` slice (`fleet.EnrollSecret`). -/
structure TeamSecret where
  secret : String
deriving Repr, DecidableEq

/-- The team record returned by the control-plane round trip (`fleet.Team`),
restricted to the fields `invoke` reads. -/
structure Team where
  name : String
  secrets : List TeamSecret
deriving Repr, DecidableEq

/-- `packaging.Options` restricted to the fields set in `invoke`
(main.go lines 97-108); the duration is kept in minutes. -/
structure Options where
  fleetURL : String
  enrollSecret : String
  updateURL : String
  identifier : String
  startService : Bool
  nativeTooling : Bool
  orbitChannel : String
  osquerydChannel : String
  desktopChannel : String
  orbitUpdateIntervalMinutes : Nat
deriving Repr, DecidableEq

/-- The options literal constructed in `invoke` (main.go lines 97-108): the
enroll secret argument is what the code reads from `team.Team.Secrets[0].Secret`,
and `FleetURL` comes from the `FLEET_SERVER_URL` environment variable. -/
def mkOptions (fleetServerURL : String) (secret : String) : Options :=
  { fleetURL := fleetServerURL
    enrollSecret := secret
    updateURL := "https://tuf.fleetctl.com"
    identifier := "com.fleetdm.orbit"
    startService := true
    nativeTooling := true
    orbitChannel := "stable"
    osquerydChannel := "stable"
    desktopChannel := "stable"
    orbitUpdateIntervalMinutes := 15 }

/-- The format tags recognized by the `switch` in `invoke` (main.go
lines 112-137); any other tag falls through with no `case` and no `default`. -/
def isSupported (packageType : String) : Bool :=
  packageType == "deb" || packageType == "rpm" || packageType == "pkg" || packageType == "msi"

/-- The external packaging toolchain (`packaging.BuildDeb` and friends) as an
oracle: given the invocation counter, the format tag and the options, it
returns the built artifact path or an error. -/
def Builder : Type := Nat → String → Options → Except String String

/-- `buildPackage` (main.go lines 205-215): run the packager and wrap a
failure with the format name. -/
def buildPackage (packageType : String) (packagerResult : Except String String) :
    Except String String :=
  match packagerResult with
  | Except.error e => Except.error ("failed to package " ++ packageType ++ ": " ++ e)
  | Except.ok pkg => Except.ok pkg

/-- A record of one builder invocation: which call it was, for which format
tag, and with which options value. -/
structure BuildInvocation where
  callIdx : Nat
  format : String
  opts : Options
deriving Repr, DecidableEq

/-- The build loop of `invoke` (main.go lines 110-138): iterate the requested
package types in order; for a recognized type call `buildPackage` with the
shared options and append the resulting path, returning the first build error
immediately; unrecognized types match no `switch` case. The first component
is the trace of builder invocations. -/
def buildLoop (builder : Builder) (options : Options) :
    List String → Nat → List String → List BuildInvocation × Except String (List String)
  | [], _, acc => ([], Except.ok acc)
  | t :: ts, ctr, acc =>
    if isSupported t then
      match buildPackage t (builder ctr t options) with
      | Except.error e => ([⟨ctr, t, options⟩], Except.error e)
      | Except.ok pkg =>
        let rest := buildLoop builder options ts (ctr + 1) (acc ++ [pkg])
        (⟨ctr, t, options⟩ :: rest.1, rest.2)
    else
      buildLoop builder options ts ctr acc

/-- The per-upload environment: the `ARTIFACT_BUCKET` variable and the results
of `os.Stat`, `os.Open` and `s3Client.PutObject` as oracles on the inputs the
code passes them. -/
structure UploadEnv where
  artifactBucket : String
  statResult : String → Except String Unit
  openResult : String → Except String Unit
  putResult : String → String → Except String Unit

/-- The destination object key computed by `uploadArtifact` (main.go
line 171): `fmt.Sprintf("teamName=%s/%s", name, file)`. -/
def objectKey (name file : String) : String :=
  "teamName=" ++ name ++ "/" ++ file

/-- `uploadArtifact` (main.go lines 166-187): refuse an empty bucket name,
compute the object key, open the file, call PutObject. The first component
records the PutObject calls made as (bucket, key) pairs. -/
def uploadArtifact (env : UploadEnv) (file name : String) :
    List (String × String) × Except String Unit :=
  if env.artifactBucket == "" then
    ([], Except.error "bucket name cannot be empty")
  else
    match env.openResult file with
    | Except.error e => ([], Except.error e)
    | Except.ok _ =>
      match env.putResult env.artifactBucket (objectKey name file) with
      | Except.error e => ([(env.artifactBucket, objectKey name file)], Except.error e)
      | Except.ok _ => ([(env.artifactBucket, objectKey name file)], Except.ok ())

/-- How one upload task ended: the stat failed (so no upload was attempted),
the upload failed, or the upload succeeded. All failures are only logged. -/
inductive UploadResult where
  | statFailed (e : String)
  | uploadFailed (e : String)
  | uploaded
deriving Repr, DecidableEq

/-- The outcome of one per-artifact upload task: the artifact it processed,
the PutObject calls it made, and how it ended. -/
structure TaskOutcome where
  artifact : String
  putCalls : List (String × String)
  result : UploadResult
deriving Repr, DecidableEq

/-- The body of one fan-out goroutine (main.go lines 143-159): stat the
artifact; on stat error log and return without uploading; otherwise call
`uploadArtifact`, logging any error. Every outcome is only logged, never
returned to the caller. -/
def fanoutTask (env : UploadEnv) (team : String) (a : String) : TaskOutcome :=
  match env.statResult a with
  | Except.error e => ⟨a, [], UploadResult.statFailed e⟩
  | Except.ok _ =>
    match uploadArtifact env a team with
    | (puts, Except.error e) => ⟨a, puts, UploadResult.uploadFailed e⟩
    | (puts, Except.ok _) => ⟨a, puts, UploadResult.uploaded⟩

/-- The upload fan-out over the built installers (main.go lines 140-161):
one task per artifact, each capturing its own artifact value. -/
def uploadFanout (env : UploadEnv) (team : String) (installers : List String) :
    List TaskOutcome :=
  installers.map (fanoutTask env team)

/-- How `invoke` ends, seen from the Lambda runtime: a Go runtime panic
(index out of range on `Secrets[0]`), the `respondError` path (status 500 with
a JSON error body), or the success response (status 200,
`"Hello from Lambda!"`). -/
inductive InvokeResult where
  | panicked
  | errorResponse (msg : String)
  | success
deriving Repr, DecidableEq

/-- The observable trace of one `invoke` run past the control-plane round
trip: the builder invocations and the upload-task outcomes. -/
structure InvokeTrace where
  builds : List BuildInvocation
  outcomes : List TaskOutcome
deriving Repr, DecidableEq

/-- The environment `invoke` runs in past the control-plane round trip. -/
structure InvokeEnv where
  fleetServerURL : String
  upload : UploadEnv
  builder : Builder

/-- `invoke` (main.go lines 54-164) from the point where the control-plane
round trip has succeeded and returned `team`: read `Secrets[0]` (a panic when
the slice is empty), construct the options once, run the build loop — on a
build error return the error response with no uploads — then fan out the
uploads and return the success response. -/
def invokeModel (env : InvokeEnv) (req : CreateInstallersRequest) (team : Team) :
    InvokeTrace × InvokeResult :=
  match team.secrets.get? 0 with
  | none => (⟨[], []⟩, InvokeResult.panicked)
  | some s =>
    match buildLoop env.builder (mkOptions env.fleetServerURL s.secret) req.packages 0 [] with
    | (tr, Except.error e) => (⟨tr, []⟩, InvokeResult.errorResponse e)
    | (tr, Except.ok installers) =>
      (⟨tr, uploadFanout env.upload req.teamName installers⟩, InvokeResult.success)

/-- Modelled from the spec: the basename of a path — the component after the
last `/` separator (the path itself when it has no separator). Used only to
state the spec's claimed destination key for comparison with `objectKey`. -/
def basename (path : String) : String :=
  match (path.splitOn "/").getLast? with
  | some s => s
  | none => path

/-- Modelled from the spec: the destination key the spec claims —
`tenant/<basename of the artifact path>`. Compared against `objectKey`,
which is what the code computes. -/
def specUploadKey (tenant file : String) : String :=
  tenant ++ "/" ++ basename file

/-- Program counter of one fan-out goroutine under the WaitGroup protocol the
code actually runs (main.go lines 143-159): the goroutine itself performs
`wg.Add(1)` first, then the stat/upload work, then the deferred `wg.Done()`. -/
inductive TaskPC where
  | start
  | running
  | finishing
  | finished
deriving Repr, DecidableEq

/-- Joint state of the fan-out after the spawn loop: the WaitGroup counter,
each goroutine's program counter, and whether the main goroutine has returned
from `wg.Wait()` (main.go line 161). -/
structure FanoutState where
  counter : Nat
  tasks : List TaskPC
  mainReturned : Bool
deriving Repr, DecidableEq

/-- The state right after `invoke` has spawned the `n` goroutines and is about
to call `wg.Wait()`: the counter is still 0 because each `wg.Add(1)` runs
inside its goroutine, and no goroutine has been scheduled yet. -/
def initFanoutState (n : Nat) : FanoutState :=
  ⟨0, List.replicate n TaskPC.start, false⟩

/-- Interleaving semantics of the fan-out: a goroutine may run its
`wg.Add(1)`, then its stat/upload work, then its deferred `wg.Done()`; the
main goroutine's `wg.Wait()` completes whenever the counter reads 0. -/
inductive FanoutStep : FanoutState → FanoutState → Prop where
  | taskAdd (s : FanoutState) (i : Nat) (h : s.tasks.get? i = some TaskPC.start) :
      FanoutStep s ⟨s.counter + 1, s.tasks.set i TaskPC.running, s.mainReturned⟩
  | taskWork (s : FanoutState) (i : Nat) (h : s.tasks.get? i = some TaskPC.running) :
      FanoutStep s ⟨s.counter, s.tasks.set i TaskPC.finishing, s.mainReturned⟩
  | taskDone (s : FanoutState) (i : Nat) (h : s.tasks.get? i = some TaskPC.finishing) :
      FanoutStep s ⟨s.counter - 1, s.tasks.set i TaskPC.finished, s.mainReturned⟩
  | mainWait (s : FanoutState) (h0 : s.counter = 0) (h1 : s.mainReturned = false) :
      FanoutStep s ⟨s.counter, s.tasks, true⟩

/-- One entry of the `apiError.Errors` slice (main.go lines 273-276). -/
structure APIErrorDetail where
  name : String
  reason : String
deriving Repr, DecidableEq

/-- `apiError` (main.go lines 271-277). `none` at use sites models a nil
pointer. -/
structure APIError where
  message : String
  errors : List APIErrorDetail
deriving Repr, DecidableEq

/-- The `messages` slice built by `errorFromAPIError` (main.go lines 192-195):
allocated with `make([]string, len(err.Errors))` — `len(err.Errors)` empty
strings — and then appended to in the range loop. -/
def apiErrorMessages (e : APIError) : List String :=
  e.errors.foldl
    (fun acc msg => acc ++ ["name: " ++ msg.name ++ " reason: " ++ msg.reason])
    (List.replicate e.errors.length "")

/-- `errorFromAPIError` (main.go lines 189-200), returning the message of the
error it constructs. -/
def errorFromAPIError (err : Option APIError) : String :=
  match err with
  | some e =>
    if e.errors.length > 0 then
      "api error: " ++ e.message ++ " messages: " ++
        String.intercalate ", " (apiErrorMessages e)
    else
      "no api error defined"
  | none => "no api error defined"

/-- A concrete environment in which every external call succeeds and the
builder returns `/tmp/build/fleet-osquery.<format>`. -/
def okEnv : InvokeEnv :=
  { fleetServerURL := "https://fleet.example.com"
    upload :=
      { artifactBucket := "fleet-artifacts"
        statResult := fun _ => Except.ok ()
        openResult := fun _ => Except.ok ()
        putResult := fun _ _ => Except.ok () }
    builder := fun _ t _ => Except.ok ("/tmp/build/fleet-osquery." ++ t) }

/-- `okEnv`, except the `msi` builder fails. -/
def msiFailEnv : InvokeEnv :=
  { okEnv with
    builder := fun _ t _ =>
      if t == "msi" then Except.error "msi toolchain unavailable"
      else Except.ok ("/tmp/build/fleet-osquery." ++ t) }

/-- `okEnv`, except object storage rejects every PutObject call. -/
def putFailEnv : InvokeEnv :=
  { okEnv with
    upload :=
      { okEnv.upload with putResult := fun _ _ => Except.error "connection refused" } }

/-! ## Helper lemmas about the build loop and the upload tasks -/

lemma buildLoop_skip (builder : Builder) (options : Options) (t : String)
    (ht : isSupported t = false) (pre post : List String) (ctr : Nat) (acc : List String) :
    buildLoop builder options (pre ++ t :: post) ctr acc =
      buildLoop builder options (pre ++ post) ctr acc := by
  induction pre generalizing ctr acc with
  | nil => simp [buildLoop, ht]
  | cons x xs ih =>
    by_cases hx : isSupported x
    · simp only [List.cons_append, buildLoop, hx, if_true]
      cases hb : buildPackage x (builder ctr x options) with
      | error e => simp [hb]
      | ok pkg => simp [hb, ih]
    · simp only [List.cons_append, buildLoop, hx, if_false]
      exact ih ctr acc

lemma buildLoop_trace_mem (builder : Builder) (options : Options)
    (xs : List String) (ctr : Nat) (acc : List String)
    (inv : BuildInvocation) (h : inv ∈ (buildLoop builder options xs ctr acc).1) :
    isSupported inv.format = true ∧ inv.opts = options := by
  induction xs generalizing ctr acc with
  | nil => simp [buildLoop] at h
  | cons x xs ih =>
    by_cases hx : isSupported x
    · simp only [buildLoop, hx, if_true] at h
      cases hb : buildPackage x (builder ctr x options) with
      | error e =>
        rw [hb] at h
        simp at h
        subst h
        exact ⟨hx, rfl⟩
      | ok pkg =>
        rw [hb] at h
        simp at h
        rcases h with h | h
        · subst h; exact ⟨hx, rfl⟩
        · exact ih _ _ h
    · simp only [buildLoop, hx, if_false] at h
      exact ih _ _ h

lemma buildLoop_fail_after (builder : Builder) (options : Options)
    (pre : List String) (t : String) (post : List String)
    (ht : isSupported t = true) (m : String) (acc' : List String)
    (ctr : Nat) (acc : List String) (tr : List BuildInvocation)
    (hpre : buildLoop builder options pre ctr acc = (tr, Except.ok acc'))
    (hfail : builder (ctr + tr.length) t options = Except.error m) :
    buildLoop builder options (pre ++ t :: post) ctr acc =
      (tr ++ [⟨ctr + tr.length, t, options⟩],
       Except.error ("failed to package " ++ t ++ ": " ++ m)) := by
  induction pre generalizing ctr acc tr with
  | nil =>
    simp only [buildLoop, Prod.mk.injEq] at hpre
    obtain ⟨h1, h2⟩ := hpre
    subst h1
    simp only [List.length_nil, Nat.add_zero] at hfail
    simp [buildLoop, ht, buildPackage, hfail]
  | cons x xs ih =>
    by_cases hx : isSupported x
    · cases hb : buildPackage x (builder ctr x options) with
      | error e =>
        simp only [buildLoop, hx, if_true, hb, Prod.mk.injEq] at hpre
        exact absurd hpre.2 (by simp)
      | ok pkg =>
        rcases hrest : buildLoop builder options xs (ctr + 1) (acc ++ [pkg]) with ⟨tr1, res1⟩
        simp only [buildLoop, hx, if_true, hb, hrest, Prod.mk.injEq] at hpre
        obtain ⟨h1, h2⟩ := hpre
        subst h1
        subst h2
        have hlen : ctr + (⟨ctr, x, options⟩ :: tr1 : List BuildInvocation).length =
            ctr + 1 + tr1.length := by simp; omega
        rw [hlen] at hfail
        have key := ih (ctr + 1) (acc ++ [pkg]) tr1 hrest hfail
        have hA : ctr + 1 + tr1.length = ctr + (tr1.length + 1) := by omega
        rw [hA] at key
        simp only [List.cons_append, buildLoop, List.append_eq, hx, if_true, hb, key,
          List.length_cons]
    · simp only [buildLoop, hx, if_false] at hpre
      simp only [List.cons_append, buildLoop, hx, if_false]
      exact ih ctr acc tr hpre hfail

lemma buildLoop_allOk (bpath : Nat → String → Options → String) (options : Options)
    (xs : List String) (ctr : Nat) (acc : List String) :
    buildLoop (fun n t o => Except.ok (bpath n t o)) options xs ctr acc =
      (((xs.filter isSupported).enumFrom ctr).map (fun p => ⟨p.1, p.2, options⟩),
       Except.ok (acc ++ ((xs.filter isSupported).enumFrom ctr).map
         (fun p => bpath p.1 p.2 options))) := by
  induction xs generalizing ctr acc with
  | nil => simp [buildLoop]
  | cons x xs ih =>
    by_cases hx : isSupported x
    · simp only [buildLoop, hx, if_true, buildPackage, List.filter_cons_of_pos hx,
        List.enumFrom, List.map_cons, ih]
      simp
    · simp [buildLoop, hx, List.filter_cons_of_neg, ih]

lemma foldl_snoc_map {α β : Type} (f : α → β) (l : List α) (start : List β) :
    List.foldl (fun acc x => acc ++ [f x]) start l = start ++ l.map f := by
  induction l generalizing start with
  | nil => simp
  | cons x xs ih => simp [List.foldl, ih]

lemma uploadArtifact_putCalls (env : UploadEnv) (file name : String)
    (p : String × String) (hp : p ∈ (uploadArtifact env file name).1) :
    p = (env.artifactBucket, objectKey name file) := by
  unfold uploadArtifact at hp
  split at hp
  · simp at hp
  · split at hp
    · simp at hp
    · split at hp <;> simpa using hp

lemma fanoutTask_spec (env : UploadEnv) (team a : String) :
    (fanoutTask env team a).artifact = a ∧
    ∀ p ∈ (fanoutTask env team a).putCalls, p = (env.artifactBucket, objectKey team a) := by
  unfold fanoutTask
  cases hs : env.statResult a with
  | error e => simp
  | ok u =>
    rcases hu : uploadArtifact env a team with ⟨puts, r⟩
    have hputs : ∀ p ∈ puts, p = (env.artifactBucket, objectKey team a) := by
      intro p hp
      exact uploadArtifact_putCalls env a team p (by rw [hu]; exact hp)
    cases r <;> simpa using hputs

lemma invokeModel_builds_mem (env : InvokeEnv) (req : CreateInstallersRequest)
    (team : Team) (s : TeamSecret) (h0 : team.secrets.get? 0 = some s)
    (inv : BuildInvocation) (h : inv ∈ (invokeModel env req team).1.builds) :
    isSupported inv.format = true ∧ inv.opts = mkOptions env.fleetServerURL s.secret := by
  unfold invokeModel at h
  split at h
  · simp at h
  · rename_i s' heq
    rw [h0] at heq
    injection heq with hs
    subst hs
    split at h
    · rename_i tr e heq2
      exact buildLoop_trace_mem env.builder _ req.packages 0 [] inv (by rw [heq2]; exact h)
    · rename_i tr installers heq2
      exact buildLoop_trace_mem env.builder _ req.packages 0 [] inv (by rw [heq2]; exact h)

lemma invokeModel_eq_some (env : InvokeEnv) (req : CreateInstallersRequest)
    (team : Team) (s : TeamSecret) (h0 : team.secrets.get? 0 = some s) :
    invokeModel env req team =
      match buildLoop env.builder (mkOptions env.fleetServerURL s.secret) req.packages 0 [] with
      | (tr, Except.error e) => (⟨tr, []⟩, InvokeResult.errorResponse e)
      | (tr, Except.ok installers) =>
        (⟨tr, uploadFanout env.upload req.teamName installers⟩, InvokeResult.success) := by
  unfold invokeModel
  rw [h0]

/-! ## The claims -/

/-- Claim C1, counterexample: in a concrete all-success run for tenant `t1`
with one built artifact `/tmp/build/fleet-osquery.deb`, the fan-out uploads it
under key `teamName=t1//tmp/build/fleet-osquery.deb`, which differs from the
claimed key `tenant/<basename>` (`t1/fleet-osquery.deb`): the code prepends
the literal `teamName=` and uses the full artifact path, not its basename. -/
theorem c1_key_counterexample :
    (invokeModel okEnv ⟨"t1", "sec", ["deb"]⟩ ⟨"t1", [⟨"s"⟩]⟩).1.outcomes =
      [⟨"/tmp/build/fleet-osquery.deb",
        [("fleet-artifacts", "teamName=t1//tmp/build/fleet-osquery.deb")],
        UploadResult.uploaded⟩] ∧
    "teamName=t1//tmp/build/fleet-osquery.deb" ≠
      specUploadKey "t1" "/tmp/build/fleet-osquery.deb" :=
  ⟨rfl, by decide⟩

/-- Claim C1, amended: for every artifact processed by the upload fan-out,
every PutObject call it makes uses the destination key
`teamName=<tenant>/<artifact path>` — the literal prefix `teamName=`, the
tenant name, a slash, and the full artifact path as returned by the builder
(no basename extraction). -/
theorem c1_upload_key (env : InvokeEnv) (req : CreateInstallersRequest) (team : Team)
    (o : TaskOutcome) (ho : o ∈ (invokeModel env req team).1.outcomes)
    (p : String × String) (hp : p ∈ o.putCalls) :
    p.2 = objectKey req.teamName o.artifact := by
  unfold invokeModel at ho
  split at ho
  · simp at ho
  · rename_i s heq
    split at ho
    · rename_i tr e heq2
      simp at ho
    · rename_i tr installers heq2
      simp only [uploadFanout] at ho
      rcases List.mem_map.mp ho with ⟨a, ha, rfl⟩
      obtain ⟨hart, hputs⟩ := fanoutTask_spec env.upload req.teamName a
      rw [hart, hputs p hp]

/-- Witness for `c1_upload_key` at a concrete run. -/
theorem c1_upload_key_witness :
    (⟨"/tmp/build/fleet-osquery.deb",
      [("fleet-artifacts", "teamName=t1//tmp/build/fleet-osquery.deb")],
      UploadResult.uploaded⟩ : TaskOutcome) ∈
      (invokeModel okEnv ⟨"t1", "sec", ["deb"]⟩ ⟨"t1", [⟨"s"⟩]⟩).1.outcomes ∧
    ("fleet-artifacts", "teamName=t1//tmp/build/fleet-osquery.deb").2 =
      objectKey "t1" "/tmp/build/fleet-osquery.deb" :=
  ⟨by decide,
   c1_upload_key okEnv ⟨"t1", "sec", ["deb"]⟩ ⟨"t1", [⟨"s"⟩]⟩
     ⟨"/tmp/build/fleet-osquery.deb",
      [("fleet-artifacts", "teamName=t1//tmp/build/fleet-osquery.deb")],
      UploadResult.uploaded⟩ (by decide)
     ("fleet-artifacts", "teamName=t1//tmp/build/fleet-osquery.deb") (by decide)⟩

/-- Claim C2: the fan-out does NOT have the claimed join semantics. Because
`wg.Add(1)` runs inside each goroutine (main.go line 144) instead of before
`go`, the state in which the main goroutine has completed `wg.Wait()` while
the single upload task is still at its start (its upload never performed) is
reachable from the post-spawn initial state in one step: the counter still
reads 0, so `Wait` returns immediately. The request can thus return before
any upload runs, contradicting the claimed barrier. -/
theorem c2_wait_before_uploads :
    Relation.ReflTransGen FanoutStep (initFanoutState 1) ⟨0, [TaskPC.start], true⟩ ∧
    TaskPC.start ≠ TaskPC.finished :=
  ⟨Relation.ReflTransGen.single (FanoutStep.mainWait _ rfl rfl), by decide⟩

/-- Claim C3: if the requested formats are `pre ++ t :: post` with `t`
recognized, every build in `pre` succeeds, and the builder fails on `t` with
message `m`, then the request returns the error response
`failed to package <t>: <m>` (a fatal error naming the format), the builder
trace stops at `t` (no builder runs for any format in `post`), and no upload
outcome exists (not even for artifacts built in `pre`). -/
theorem c3_build_failure (env : InvokeEnv) (req : CreateInstallersRequest)
    (team : Team) (s : TeamSecret) (h0 : team.secrets.get? 0 = some s)
    (pre : List String) (t : String) (post : List String)
    (hreq : req.packages = pre ++ t :: post) (ht : isSupported t = true)
    (tr : List BuildInvocation) (acc' : List String)
    (hpre : buildLoop env.builder (mkOptions env.fleetServerURL s.secret) pre 0 [] =
      (tr, Except.ok acc'))
    (m : String)
    (hfail : env.builder tr.length t (mkOptions env.fleetServerURL s.secret) =
      Except.error m) :
    invokeModel env req team =
      (⟨tr ++ [⟨tr.length, t, mkOptions env.fleetServerURL s.secret⟩], []⟩,
       InvokeResult.errorResponse ("failed to package " ++ t ++ ": " ++ m)) := by
  have key := buildLoop_fail_after env.builder (mkOptions env.fleetServerURL s.secret)
    pre t post ht m acc' 0 [] tr hpre (by simpa using hfail)
  simp only [Nat.zero_add] at key
  rw [invokeModel_eq_some env req team s h0, hreq, key]

/-- Witness for `c3_build_failure`: `["deb", "msi", "rpm"]` with `msi`
failing — `deb` is built, `rpm` is not, no uploads happen. -/
theorem c3_build_failure_witness :
    invokeModel msiFailEnv ⟨"t1", "sec", ["deb", "msi", "rpm"]⟩ ⟨"t1", [⟨"s"⟩]⟩ =
      (⟨[⟨0, "deb", mkOptions "https://fleet.example.com" "s"⟩,
         ⟨1, "msi", mkOptions "https://fleet.example.com" "s"⟩], []⟩,
       InvokeResult.errorResponse
         ("failed to package " ++ "msi" ++ ": " ++ "msi toolchain unavailable")) :=
  c3_build_failure msiFailEnv ⟨"t1", "sec", ["deb", "msi", "rpm"]⟩ ⟨"t1", [⟨"s"⟩]⟩ ⟨"s"⟩ rfl
    ["deb"] "msi" ["rpm"] rfl rfl
    [⟨0, "deb", mkOptions "https://fleet.example.com" "s"⟩]
    ["/tmp/build/fleet-osquery.deb"] rfl "msi toolchain unavailable" rfl

/-- Claim C4: a request with an empty format list invokes no builder, produces
an empty artifact list and no upload, and returns the success response. -/
theorem c4_empty_packages (env : InvokeEnv) (req : CreateInstallersRequest)
    (team : Team) (s : TeamSecret) (h0 : team.secrets.get? 0 = some s)
    (hp : req.packages = []) :
    invokeModel env req team = (⟨[], []⟩, InvokeResult.success) := by
  unfold invokeModel
  rw [h0, hp]
  rfl

/-- Witness for `c4_empty_packages`. -/
theorem c4_empty_packages_witness :
    invokeModel okEnv ⟨"t1", "sec", []⟩ ⟨"t1", [⟨"s"⟩]⟩ = (⟨[], []⟩, InvokeResult.success) :=
  c4_empty_packages okEnv ⟨"t1", "sec", []⟩ ⟨"t1", [⟨"s"⟩]⟩ ⟨"s"⟩ rfl rfl

/-- Claim C5: a format tag outside `{deb, rpm, pkg, msi}` is silently
skipped — the whole run (trace and result) equals the run on the request with
that tag removed, and no builder invocation carries that tag. -/
theorem c5_unrecognized_skipped (env : InvokeEnv) (req : CreateInstallersRequest)
    (team : Team) (t : String) (pre post : List String)
    (ht : isSupported t = false) (hreq : req.packages = pre ++ t :: post) :
    invokeModel env req team =
      invokeModel env ⟨req.teamName, req.enrollSecret, pre ++ post⟩ team ∧
    ∀ inv ∈ (invokeModel env req team).1.builds, inv.format ≠ t := by
  constructor
  · unfold invokeModel
    cases h0 : team.secrets.get? 0 with
    | none => rfl
    | some s =>
      simp only [hreq]
      rw [buildLoop_skip env.builder _ t ht pre post 0 []]
  · intro inv hinv hform
    rcases h0 : team.secrets.get? 0 with - | s
    · unfold invokeModel at hinv
      rw [h0] at hinv
      simp at hinv
    · have := (invokeModel_builds_mem env req team s h0 inv hinv).1
      rw [hform] at this
      rw [this] at ht
      exact absurd ht (by simp)

/-- Witness for `c5_unrecognized_skipped`: the unsupported tag `exe` between
`deb` and `rpm` changes nothing. -/
theorem c5_unrecognized_skipped_witness :
    invokeModel okEnv ⟨"t1", "sec", ["deb", "exe", "rpm"]⟩ ⟨"t1", [⟨"s"⟩]⟩ =
      invokeModel okEnv ⟨"t1", "sec", ["deb", "rpm"]⟩ ⟨"t1", [⟨"s"⟩]⟩ ∧
    ∀ inv ∈ (invokeModel okEnv ⟨"t1", "sec", ["deb", "exe", "rpm"]⟩
        ⟨"t1", [⟨"s"⟩]⟩).1.builds, inv.format ≠ "exe" :=
  c5_unrecognized_skipped okEnv ⟨"t1", "sec", ["deb", "exe", "rpm"]⟩ ⟨"t1", [⟨"s"⟩]⟩
    "exe" ["deb"] ["rpm"] (by decide) rfl

/-- Claim C6: when all builds succeed, the request returns the success
response for EVERY upload environment — whatever the stat results, bucket
configuration or storage errors — and every built installer is processed by
exactly one upload task, in the order built, with its own outcome. -/
theorem c6_upload_failures_not_fatal (env : InvokeEnv) (req : CreateInstallersRequest)
    (team : Team) (s : TeamSecret) (h0 : team.secrets.get? 0 = some s)
    (tr : List BuildInvocation) (installers : List String)
    (hbuild : buildLoop env.builder (mkOptions env.fleetServerURL s.secret) req.packages 0 [] =
      (tr, Except.ok installers)) :
    (invokeModel env req team).2 = InvokeResult.success ∧
    (invokeModel env req team).1.outcomes =
      installers.map (fanoutTask env.upload req.teamName) ∧
    ((invokeModel env req team).1.outcomes).map TaskOutcome.artifact = installers := by
  have hrun : invokeModel env req team =
      (⟨tr, uploadFanout env.upload req.teamName installers⟩, InvokeResult.success) := by
    rw [invokeModel_eq_some env req team s h0, hbuild]
  rw [hrun]
  refine ⟨rfl, rfl, ?_⟩
  show (uploadFanout env.upload req.teamName installers).map TaskOutcome.artifact = installers
  rw [uploadFanout, List.map_map,
    show TaskOutcome.artifact ∘ fanoutTask env.upload req.teamName = id from
      funext fun a => (fanoutTask_spec env.upload req.teamName a).1,
    List.map_id]

/-- Witness for `c6_upload_failures_not_fatal`: object storage rejects every
put, yet the request still succeeds and both artifacts get an outcome. -/
theorem c6_upload_failures_not_fatal_witness :
    (invokeModel putFailEnv ⟨"t1", "sec", ["deb", "rpm"]⟩ ⟨"t1", [⟨"s"⟩]⟩).2 =
      InvokeResult.success ∧
    (invokeModel putFailEnv ⟨"t1", "sec", ["deb", "rpm"]⟩ ⟨"t1", [⟨"s"⟩]⟩).1.outcomes =
      ["/tmp/build/fleet-osquery.deb", "/tmp/build/fleet-osquery.rpm"].map
        (fanoutTask putFailEnv.upload "t1") ∧
    ((invokeModel putFailEnv ⟨"t1", "sec", ["deb", "rpm"]⟩
        ⟨"t1", [⟨"s"⟩]⟩).1.outcomes).map TaskOutcome.artifact =
      ["/tmp/build/fleet-osquery.deb", "/tmp/build/fleet-osquery.rpm"] :=
  c6_upload_failures_not_fatal putFailEnv ⟨"t1", "sec", ["deb", "rpm"]⟩ ⟨"t1", [⟨"s"⟩]⟩ ⟨"s"⟩
    rfl [⟨0, "deb", mkOptions "https://fleet.example.com" "s"⟩,
         ⟨1, "rpm", mkOptions "https://fleet.example.com" "s"⟩]
    ["/tmp/build/fleet-osquery.deb", "/tmp/build/fleet-osquery.rpm"] rfl

/-- Claim C7: when the builder always succeeds, the builder invocations are
exactly the recognized tags of the request in request order (each occurrence,
duplicates included) with strictly increasing call indices 0, 1, 2, …, the
request succeeds, and the artifact list handed to the upload stage is in the
same (filtered) request order. -/
theorem c7_sequential_ordered (env : InvokeEnv) (req : CreateInstallersRequest)
    (team : Team) (s : TeamSecret) (h0 : team.secrets.get? 0 = some s)
    (bpath : Nat → String → Options → String)
    (hb : env.builder = fun n t o => Except.ok (bpath n t o)) :
    (invokeModel env req team).1.builds =
      ((req.packages.filter isSupported).enumFrom 0).map
        (fun p => ⟨p.1, p.2, mkOptions env.fleetServerURL s.secret⟩) ∧
    (invokeModel env req team).2 = InvokeResult.success ∧
    ((invokeModel env req team).1.outcomes).map TaskOutcome.artifact =
      ((req.packages.filter isSupported).enumFrom 0).map
        (fun p => bpath p.1 p.2 (mkOptions env.fleetServerURL s.secret)) := by
  have key := buildLoop_allOk bpath (mkOptions env.fleetServerURL s.secret) req.packages 0 []
  rw [← hb] at key
  have hrun := invokeModel_eq_some env req team s h0
  rw [key] at hrun
  rw [hrun]
  refine ⟨rfl, rfl, ?_⟩
  show (uploadFanout env.upload req.teamName _).map TaskOutcome.artifact = _
  rw [uploadFanout, List.map_map,
    show TaskOutcome.artifact ∘ fanoutTask env.upload req.teamName = id from
      funext fun a => (fanoutTask_spec env.upload req.teamName a).1,
    List.map_id, List.nil_append]

/-- Witness for `c7_sequential_ordered`: the duplicate tag `deb` is built
twice, at call indices 0 and 1, and both artifacts are uploaded in order. -/
theorem c7_sequential_ordered_witness :
    (invokeModel okEnv ⟨"t1", "sec", ["deb", "deb"]⟩ ⟨"t1", [⟨"s"⟩]⟩).1.builds =
      [⟨0, "deb", mkOptions "https://fleet.example.com" "s"⟩,
       ⟨1, "deb", mkOptions "https://fleet.example.com" "s"⟩] ∧
    (invokeModel okEnv ⟨"t1", "sec", ["deb", "deb"]⟩ ⟨"t1", [⟨"s"⟩]⟩).2 =
      InvokeResult.success ∧
    ((invokeModel okEnv ⟨"t1", "sec", ["deb", "deb"]⟩
        ⟨"t1", [⟨"s"⟩]⟩).1.outcomes).map TaskOutcome.artifact =
      ["/tmp/build/fleet-osquery.deb", "/tmp/build/fleet-osquery.deb"] :=
  c7_sequential_ordered okEnv ⟨"t1", "sec", ["deb", "deb"]⟩ ⟨"t1", [⟨"s"⟩]⟩ ⟨"s"⟩ rfl
    (fun _ t _ => "/tmp/build/fleet-osquery." ++ t) rfl

/-- Claim C8: every builder invocation of a request receives the one options
value built from the resolved team's first secret; that options value's enroll
secret is the team's secret (not the request's `enroll_secret`), and indeed
the whole run is independent of the request's `enroll_secret` field. -/
theorem c8_options_once (env : InvokeEnv) (req : CreateInstallersRequest)
    (team : Team) (s : TeamSecret) (h0 : team.secrets.get? 0 = some s) :
    (∀ inv ∈ (invokeModel env req team).1.builds,
      inv.opts = mkOptions env.fleetServerURL s.secret) ∧
    (mkOptions env.fleetServerURL s.secret).enrollSecret = s.secret ∧
    ∀ es, invokeModel env ⟨req.teamName, es, req.packages⟩ team = invokeModel env req team := by
  refine ⟨?_, rfl, ?_⟩
  · intro inv hinv
    exact (invokeModel_builds_mem env req team s h0 inv hinv).2
  · intro es
    rfl

/-- Witness for `c8_options_once`: the inbound request carries
`other-secret`, yet the options use the team secret `s`. -/
theorem c8_options_once_witness :
    (∀ inv ∈ (invokeModel okEnv ⟨"t1", "other-secret", ["deb"]⟩
        ⟨"t1", [⟨"s"⟩]⟩).1.builds,
      inv.opts = mkOptions "https://fleet.example.com" "s") ∧
    (mkOptions "https://fleet.example.com" "s").enrollSecret = "s" ∧
    ∀ es, invokeModel okEnv ⟨"t1", es, ["deb"]⟩ ⟨"t1", [⟨"s"⟩]⟩ =
      invokeModel okEnv ⟨"t1", "other-secret", ["deb"]⟩ ⟨"t1", [⟨"s"⟩]⟩ :=
  c8_options_once okEnv ⟨"t1", "other-secret", ["deb"]⟩ ⟨"t1", [⟨"s"⟩]⟩ ⟨"s"⟩ rfl

/-- Claim C9: when the control plane returns a team whose `Secrets` slice is
empty, `invoke` hits the unchecked `Secrets[0]` index and the run ends in a
runtime panic — an empty trace and no structured error response. -/
theorem c9_empty_secrets_panics (env : InvokeEnv) (req : CreateInstallersRequest)
    (team : Team) (h : team.secrets = []) :
    invokeModel env req team = (⟨[], []⟩, InvokeResult.panicked) := by
  unfold invokeModel
  rw [h]
  rfl

/-- Witness for `c9_empty_secrets_panics`. -/
theorem c9_empty_secrets_panics_witness :
    invokeModel okEnv ⟨"t1", "sec", ["deb"]⟩ ⟨"t1", []⟩ = (⟨[], []⟩, InvokeResult.panicked) :=
  c9_empty_secrets_panics okEnv ⟨"t1", "sec", ["deb"]⟩ ⟨"t1", []⟩ rfl

/-- Claim C10: for a non-nil apiError with n entries, the joined `messages`
slice has 2n elements whose first n are empty strings (the slice is allocated
with length n and then appended to), and the returned message joins them; for
zero entries (or nil) the result is the fixed `no api error defined`. -/
theorem c10_api_error_messages (e : APIError) :
    (apiErrorMessages e).length = 2 * e.errors.length ∧
    (apiErrorMessages e).take e.errors.length = List.replicate e.errors.length "" ∧
    (0 < e.errors.length →
      errorFromAPIError (some e) =
        "api error: " ++ e.message ++ " messages: " ++
          String.intercalate ", " (apiErrorMessages e)) ∧
    (e.errors.length = 0 → errorFromAPIError (some e) = "no api error defined") := by
  have hm : apiErrorMessages e =
      List.replicate e.errors.length "" ++
        e.errors.map (fun msg => "name: " ++ msg.name ++ " reason: " ++ msg.reason) :=
    foldl_snoc_map _ _ _
  refine ⟨?_, ?_, ?_, ?_⟩
  · rw [hm]
    simp
    omega
  · rw [hm]
    exact List.take_left' (List.length_replicate _ _)
  · intro h
    simp only [errorFromAPIError]
    rw [if_pos h]
  · intro h
    simp only [errorFromAPIError]
    rw [if_neg (by omega)]

/-- Witness for `c10_api_error_messages` at a one-entry apiError: note the
leading `, ` in the joined message, coming from the n preallocated empty
strings. -/
theorem c10_api_error_messages_witness :
    0 < (1 : Nat) ∧
    errorFromAPIError (some ⟨"boom", [⟨"n1", "r1"⟩]⟩) =
      "api error: " ++ "boom" ++ " messages: " ++
        String.intercalate ", " (apiErrorMessages ⟨"boom", [⟨"n1", "r1"⟩]⟩) :=
  ⟨by decide, (c10_api_error_messages ⟨"boom", [⟨"n1", "r1"⟩]⟩).2.2.1 (by decide)⟩

end FleetLambdaPackager
